import Mathlib

/-!
Verification of the text-extraction and score-banding helpers of the
School-Report-Maker repository (`processing_helpers.py`).

Modelling conventions (shallow embedding):
* Python strings are modelled as `List Char`; `chars s` injects a Lean string
  literal.  Character classes (whitespace, digits, letters) are modelled over
  ASCII, which covers every string the program manipulates.
* A value passed to `float(...)` is modelled as `Option ℚ`: `some q` stands for
  a value that converts to the (finite) real number `q`, `none` for a value
  whose conversion raises `ValueError`/`TypeError`.
* Functions that can `raise` are modelled in `Except (List Char)`.
* `pandas` dataframes are modelled as lists of records.
-/

/-- Characters of a Lean string literal, as the `List Char` string model. -/
def chars (s : String) : List Char := s.data

/-- Whitespace test matching Python's `str` whitespace classes (ASCII range):
space, tab, newline, carriage return, vertical tab and form feed. -/
def pyIsSpace (c : Char) : Bool :=
  c = ' ' || c = '\t' || c = '\n' || c = '\r' || c = '\x0b' || c = '\x0c'

/-- Python `str.split()` with no separator: split on runs of whitespace and
discard empty pieces. -/
def pySplit (l : List Char) : List (List Char) :=
  (l.foldr
    (fun c acc =>
      if pyIsSpace c then [] :: acc
      else
        match acc with
        | [] => [[c]]
        | t :: ts => (c :: t) :: ts)
    []).filter (fun t => t ≠ [])

/-- Python `str.strip()`: remove leading and trailing whitespace. -/
def pyStrip (l : List Char) : List Char :=
  ((l.dropWhile pyIsSpace).reverse.dropWhile pyIsSpace).reverse

/-- Prefix test on character lists. -/
def charsPrefix : List Char → List Char → Bool
  | [], _ => true
  | _ :: _, [] => false
  | a :: s, b :: l => a = b && charsPrefix s l

/-- Python's substring test `sub in line` on strings: `sub` is a contiguous
substring of `line`. -/
def pyIn (sub line : List Char) : Bool :=
  charsPrefix sub line ||
    match line with
    | [] => false
    | _ :: rest => pyIn sub rest

/-- Python `str.isupper()`: at least one cased character and no lowercase cased
character.  In the ASCII model the cased characters are the letters. -/
def pyIsUpper (l : List Char) : Bool :=
  l.any (fun c => c.isAlpha) && l.all (fun c => !c.isAlpha || c.isUpper)

/-- Digit run possibly containing single underscores strictly between digits,
as accepted inside a Python integer literal string (`int("1_2") = 12`). -/
def digitsUAux : List Char → Bool
  | [] => true
  | '_' :: c :: rest => c.isDigit && digitsUAux rest
  | '_' :: [] => false
  | c :: rest => c.isDigit && digitsUAux rest

/-- Valid unsigned body of Python `int(...)` on a string: nonempty, starts with
a digit, digits with single underscores between digits. -/
def validIntBody (l : List Char) : Bool :=
  (match l with
   | [] => false
   | c :: _ => c.isDigit) && digitsUAux l

/-- Numeric value of a digit/underscore run, ignoring the underscores. -/
def digitsVal (l : List Char) : Nat :=
  l.foldl (fun acc c => if c = '_' then acc else acc * 10 + (c.toNat - '0'.toNat)) 0

/-- Python `int(token)` on a whitespace-free token: optional sign followed by a
valid digit body; `none` models the `ValueError` raised otherwise. -/
def pyInt : List Char → Option Int
  | '+' :: rest => if validIntBody rest then some (digitsVal rest : Int) else none
  | '-' :: rest => if validIntBody rest then some (-(digitsVal rest : Int)) else none
  | l => if validIntBody l then some (digitsVal l : Int) else none

/-- Python `str.isdigit()` in the ASCII model: nonempty and all digits. -/
def pyIsDigitStr (l : List Char) : Bool :=
  !l.isEmpty && l.all (fun c => c.isDigit)

/-- Python `token.replace('.', '', 1)`: remove the first dot, if any. -/
def removeFirstDot : List Char → List Char
  | [] => []
  | '.' :: rest => rest
  | c :: rest => c :: removeFirstDot rest

/-- Float-convertible value, the result of an attempted `float(ss)`: `some q`
when the input converts to the real number `q`, `none` when the conversion
raises (`ValueError`/`TypeError`). -/
abbrev PyFloat := Option ℚ

/-- Band classifier `classify_band` of `processing_helpers.py`: thresholds at
70/80/90/110/120, with the `"N/A"` sentinel on a failed float conversion. -/
def classify_band (ss : PyFloat) : List Char :=
  match ss with
  | none => chars "N/A"
  | some q =>
    if q < 70 then chars "Very Low"
    else if q < 80 then chars "Low"
    else if q < 90 then chars "Low Average"
    else if q < 110 then chars "Average"
    else if q < 120 then chars "High Average"
    else chars "Superior"

/-- The `band_colors` table of `processing_helpers.py` (label, hex color). -/
def band_colors : List (List Char × List Char) :=
  [(chars "Very Low", chars "#FF4C4C"),
   (chars "Low", chars "#FFA500"),
   (chars "Low Average", chars "#FFFF66"),
   (chars "Average", chars "#66B2FF"),
   (chars "High Average", chars "#00CED1"),
   (chars "Superior", chars "#32CD32")]

/-- Band column labels, in table order (`list(band_colors.keys())`). -/
def band_columns : List (List Char) := band_colors.map Prod.fst

/-- The six score ranges of the band classifier, as Boolean range predicates in
classifier order. -/
def bandRanges : List (ℚ → Bool) :=
  [fun q => decide (q < 70),
   fun q => decide (70 ≤ q) && decide (q < 80),
   fun q => decide (80 ≤ q) && decide (q < 90),
   fun q => decide (90 ≤ q) && decide (q < 110),
   fun q => decide (110 ≤ q) && decide (q < 120),
   fun q => decide (120 ≤ q)]

/-- One recognized score row of `extract_test_data`: columns `Test/Cluster`,
`SS`, `PR`. -/
structure TestRow where
  testCluster : List Char
  ss : Int
  pr : Int
deriving DecidableEq, Repr

/-- Accumulator loop of keep-first deduplication: drop every element already
seen, keep the first occurrence of each new element. -/
def dedupKeepFirstAux {α : Type} [DecidableEq α] (seen : List α) : List α → List α
  | [] => []
  | a :: l =>
    if a ∈ seen then dedupKeepFirstAux seen l
    else a :: dedupKeepFirstAux (a :: seen) l

/-- Keep-first deduplication, the semantics of
`DataFrame.drop_duplicates(subset=['Test/Cluster','SS','PR'])` on a frame
whose columns are exactly that subset: the first occurrence of each row is
kept, in order. -/
def dedupKeepFirst {α : Type} [DecidableEq α] (l : List α) : List α :=
  dedupKeepFirstAux [] l

/-- Loop body of `extract_test_data` for one line: tokenize, require at least
five tokens, parse the final two tokens as integers, locate the first numeric
token (`token.replace('.', '', 1).isdigit()`) and name the row with the tokens
before it; `none` models `continue` (line skipped). -/
def parseScoreLine (line : List Char) : Option TestRow :=
  let tokens := pySplit (pyStrip line)
  if tokens.length < 5 then none
  else
    match pyInt (tokens.getD (tokens.length - 2) []),
          pyInt (tokens.getD (tokens.length - 1) []) with
    | some ss, some pr =>
      match tokens.findIdx? (fun t => pyIsDigitStr (removeFirstDot t)) with
      | some i => some ⟨List.intercalate [' '] (tokens.take i), ss, pr⟩
      | none => none
    | _, _ => none

/-- Raw row list produced by the `for line in test_list` loop of
`extract_test_data`, in line order, before deduplication. -/
def rawScoreRows (test_list : List (List Char)) : List TestRow :=
  test_list.filterMap parseScoreLine

/-- Score-line parser `extract_test_data` of `processing_helpers.py`. -/
def extract_test_data (test_list : List (List Char)) : List TestRow :=
  dedupKeepFirst (rawScoreRows test_list)

/-- Inner loop of `get_all_the_scores_text` over one page: the lines collected
before the stop phrase, and whether the stop phrase was found (early return). -/
def scanPage (stop_phrase : List Char) : List (List Char) → List (List Char) × Bool
  | [] => ([], false)
  | line :: rest =>
    if pyIn stop_phrase line then ([], true)
    else
      let (c, s) := scanPage stop_phrase rest
      (line :: c, s)

/-- Section slicer `get_all_the_scores_text` of `processing_helpers.py`:
collect lines over all pages until a line containing the stop phrase. -/
def get_all_the_scores_text (all_page_lines : List (List (List Char)))
    (stop_phrase : List Char) : List (List Char) :=
  match all_page_lines with
  | [] => []
  | page :: more =>
    let (c, s) := scanPage stop_phrase page
    if s then c else c ++ get_all_the_scores_text more stop_phrase

/-- Dot test of the regexes: `.` matches any character except a newline. -/
def dotOk (l : List Char) : Bool := l.all (fun c => c ≠ '\n')

/-- Match of `\s+post` at the start of `s`, for a literal `post` whose first
character is not whitespace (true of every literal tail used in the program:
`School:`, `Teacher:`, `Grade:`, `ID:`).  The greedy `\s+` is then forced to
consume the whole whitespace run, so the match succeeds exactly when `s` opens
with a nonempty whitespace run followed directly by `post`. -/
def wsThenLit (post s : List Char) : Bool :=
  match s with
  | [] => false
  | c :: _ => pyIsSpace c && charsPrefix post (s.dropWhile pyIsSpace)

/-- Backtracking match of `\s*(.*?)\s+post` against `s`, returning group 1.
Engine order: the greedy `\s*` tries the longest whitespace prefix first and
backtracks downward; inside it the lazy `(.*?)` grows from the empty string.
The first success in that order determines the captured group. -/
def lazyGroup (post s : List Char) : Option (List Char) :=
  ((List.range ((s.takeWhile pyIsSpace).length + 1)).reverse).findSome?
    (fun j =>
      (List.range (s.length - j + 1)).findSome?
        (fun k =>
          let grp := (s.drop j).take k
          if dotOk grp && wsThenLit post (s.drop (j + k)) then some grp
          else none))

/-- Semantics of `re.search(pre + r"\s*(.*?)\s+" + post, line).group(1)` for
literal `pre`/`post`: try each start position left to right; a candidate start
must carry the literal `pre`, and the first start whose tail admits the inner
match yields its preferred group.  `none` models a failed search (on which the
Python code calls `.group(1)` on `None` and raises `AttributeError`). -/
def searchLazy (pre post : List Char) : List Char → Option (List Char)
  | [] => none
  | l@(_ :: rest) =>
    if charsPrefix pre l then
      match lazyGroup post (l.drop pre.length) with
      | some g => some g
      | none => searchLazy pre post rest
    else searchLazy pre post rest

/-- Semantics of `re.search(pre + r"\s*(.*)", line).group(1)` for a literal
`pre`: at the leftmost occurrence of `pre`, the greedy `\s*` consumes the
whitespace run and the greedy `(.*)` captures the rest of the line up to a
newline. -/
def searchAfter (pre : List Char) : List Char → Option (List Char)
  | [] => none
  | l@(_ :: rest) =>
    if charsPrefix pre l then
      some (((l.drop pre.length).dropWhile pyIsSpace).takeWhile (fun c => c ≠ '\n'))
    else searchAfter pre rest

/-- Anchored match of `date_line_pattern`, the regex
`(\d{2}/\d{2}/\d{4})\s+\(([^)]+)\)`, at the start of `s`: group 1 is the date,
group 2 the nonempty parenthesized abbreviation. -/
def dateGroups (s : List Char) : Option (List Char × List Char) :=
  match s with
  | d1 :: d2 :: '/' :: d3 :: d4 :: '/' :: d5 :: d6 :: d7 :: d8 :: rest =>
    if d1.isDigit && d2.isDigit && d3.isDigit && d4.isDigit &&
       d5.isDigit && d6.isDigit && d7.isDigit && d8.isDigit then
      match rest with
      | c :: _ =>
        if pyIsSpace c then
          match rest.dropWhile pyIsSpace with
          | '(' :: inner =>
            match inner.dropWhile (fun c => c ≠ ')') with
            | ')' :: _ =>
              let grp2 := inner.takeWhile (fun c => c ≠ ')')
              if grp2.isEmpty then none
              else some ([d1, d2, '/', d3, d4, '/', d5, d6, d7, d8], grp2)
            | _ => none
          | _ => none
        else none
      | [] => none
    else none
  | _ => none

/-- Semantics of `date_line_pattern.search(line)`: leftmost match. -/
def date_line_pattern_search : List Char → Option (List Char × List Char)
  | [] => none
  | l@(_ :: rest) =>
    match dateGroups l with
    | some g => some g
    | none => date_line_pattern_search rest

/-- Semantics of `date_line_pattern.match(line)`: match anchored at the start
of the line. -/
def date_line_pattern_match (l : List Char) : Option (List Char × List Char) :=
  dateGroups l

/-- Administrative record assembled in the `admin_data` dictionary: each field
is `some` of its extracted text once set, `none` while absent. -/
structure AdminData where
  name : Option (List Char) := none
  school : Option (List Char) := none
  dateOfBirth : Option (List Char) := none
  teacher : Option (List Char) := none
  age : Option (List Char) := none
  grade : Option (List Char) := none
  sex : Option (List Char) := none
deriving DecidableEq, Repr

/-- One row of the `tests_df` frame: test date, abbreviation and name. -/
structure TestNameRow where
  testDate : List Char
  testAbbrev : List Char
  testName : List Char
deriving DecidableEq, Repr

/-- Loop body of the first `for line in admin_lines` loop of
`extract_administrative_info_and_make_df`: the `if`/`elif` chain keyed on
label substrings, threading the `admin_data` record and the `test_dates`
list.  A failed `re.search` under a taken branch models Python's
`None.group(1)` and yields an error. -/
def processAdminLine (st : AdminData × List (List Char × List Char))
    (line : List Char) :
    Except (List Char) (AdminData × List (List Char × List Char)) :=
  let (ad, dates) := st
  if pyIn (chars "Name:") line && pyIn (chars "School:") line then
    match searchLazy (chars "Name:") (chars "School:") line,
          searchAfter (chars "School:") line with
    | some nm, some sc => .ok ({ ad with name := some nm, school := some sc }, dates)
    | _, _ => .error (chars "AttributeError")
  else if pyIn (chars "Date of Birth:") line && pyIn (chars "Teacher:") line then
    match searchLazy (chars "Date of Birth:") (chars "Teacher:") line,
          searchAfter (chars "Teacher:") line with
    | some db, some tc => .ok ({ ad with dateOfBirth := some db, teacher := some tc }, dates)
    | _, _ => .error (chars "AttributeError")
  else if pyIn (chars "Age:") line && pyIn (chars "Grade:") line then
    match searchLazy (chars "Age:") (chars "Grade:") line,
          searchAfter (chars "Grade:") line with
    | some ag, some gr => .ok ({ ad with age := some ag, grade := some gr }, dates)
    | _, _ => .error (chars "AttributeError")
  else if pyIn (chars "Sex:") line then
    match searchLazy (chars "Sex:") (chars "ID:") line with
    | some sx => .ok ({ ad with sex := some sx }, dates)
    | none => .error (chars "AttributeError")
  else if pyIn (chars "Date of Testing:") line then
    match date_line_pattern_search line with
    | some p => .ok (ad, dates ++ [p])
    | none => .ok (ad, dates)
  else .ok (ad, dates)

/-- Second `for line in admin_lines` loop: anchored date-pattern matches are
appended to `test_dates` when not already present. -/
def addMatchDates (dates : List (List Char × List Char))
    (admin_lines : List (List Char)) : List (List Char × List Char) :=
  admin_lines.foldl
    (fun ds line =>
      match date_line_pattern_match line with
      | some p => if p ∈ ds then ds else ds ++ [p]
      | none => ds)
    dates

/-- Pairing loop `for i, test_name in enumerate(test_lines)` guarded by
`i < len(test_dates)`: zip the test-name lines with the collected dates. -/
def pairTests (test_lines : List (List Char))
    (dates : List (List Char × List Char)) : List TestNameRow :=
  (test_lines.zip dates).map (fun p => ⟨p.2.1, p.2.2, p.1⟩)

/-- Administrative parser `extract_administrative_info_and_make_df` of
`processing_helpers.py`.  `lines[1:10]` is scanned; a missing
`TESTS ADMINISTERED` header raises `ValueError` on `.index`, and any raised
error is re-raised with the wrapping message of the `except` clause.  On
success it returns the administrative record, the paired test rows and the
index 10 at which the score lines start. -/
def extract_administrative_info_and_make_df (lines : List (List Char)) :
    Except (List Char) (AdminData × List TestNameRow × Nat) :=
  let basic_info := (lines.drop 1).take 9
  match basic_info.findIdx? (fun l => l = chars "TESTS ADMINISTERED") with
  | none =>
    .error (chars "Error extracting administrative information: ValueError")
  | some idx =>
    let admin_lines := basic_info.take idx
    let test_lines := basic_info.drop (idx + 1)
    match admin_lines.foldlM processAdminLine ({}, []) with
    | .error e =>
      .error (chars "Error extracting administrative information: " ++ e)
    | .ok (ad, dates1) =>
      let dates := addMatchDates dates1 admin_lines
      .ok (ad, pairTests test_lines dates, 10)

/-- Value held in one dataframe cell, as seen by `is_uppercase_value`: either
a string or an integer (`str(value)` of an integer has no cased character). -/
inductive ColVal : Type
  | strVal (v : List Char)
  | intVal (n : Int)
deriving DecidableEq, Repr

/-- Column names of the frame returned by `extract_test_data`. -/
inductive ColName : Type
  | testCluster
  | ssCol
  | prCol
deriving DecidableEq, Repr

/-- Cell lookup `row[column_name]` on a `TestRow`. -/
def colVal (r : TestRow) : ColName → ColVal
  | .testCluster => .strVal r.testCluster
  | .ssCol => .intVal r.ss
  | .prCol => .intVal r.pr

/-- Predicate `is_uppercase_value` of `processing_helpers.py`:
`str(value).isupper()`.  The decimal digits and the minus sign are uncased, so
an integer value always yields `false`. -/
def is_uppercase_value : ColVal → Bool
  | .strVal v => pyIsUpper v
  | .intVal _ => false

/-- Reordering helper `order_dataframe_by_uppercase_in_column` of
`processing_helpers.py`: uppercase-valued rows first, the rest after, both in
frame order; an empty frame is returned as is. -/
def order_dataframe_by_uppercase_in_column (df : List TestRow)
    (column_name : ColName) : List TestRow :=
  if df = [] then df
  else
    df.filter (fun r => is_uppercase_value (colVal r column_name)) ++
      df.filter (fun r => !is_uppercase_value (colVal r column_name))

/-- Inner loop of `wrap_text` over the words, carrying `current_line`; the
final `current_line` is stripped and appended. -/
def wrapLoop (max_width : Nat) : List (List Char) → List Char → List (List Char)
  | [], current => [pyStrip current]
  | w :: ws, current =>
    if current.length + w.length + 1 ≤ max_width then
      wrapLoop max_width ws (current ++ w ++ [' '])
    else
      pyStrip current :: wrapLoop max_width ws (w ++ [' '])

/-- Text wrapper `wrap_text` of `processing_helpers.py`: greedy fill of lines
of at most `max_width` characters, joined with newlines; a falsy (empty) text
yields the empty string. -/
def wrap_text (text : List Char) (max_width : Nat) : List Char :=
  if text = [] then []
  else List.intercalate ['\n'] (wrapLoop max_width (pySplit text) [])

/-- Row of the frame fed to `create_band_table` (columns `Test`, `SS`, `PR`
after the rename in `app.py`); the `SS` cell is carried together with its
float-convertibility, as consumed by `classify_band`. -/
structure RenamedRow where
  test : List Char
  ssVal : PyFloat
deriving DecidableEq, Repr

/-- Dataframe argument of `create_band_table`, with the optional `title`
attribute read by `getattr(df, "title", "Unknown Assessment")`. -/
structure ScoreDF where
  title : Option (List Char)
  rows : List RenamedRow
deriving DecidableEq, Repr

/-- Content of one band-table cell: the row's `SS` value, or the empty
string. -/
inductive Cell : Type
  | val (x : PyFloat)
  | empty
deriving DecidableEq, Repr

/-- One row of the band table: wrapped composite name plus one cell per band
column, in `band_columns` order (`{col: ss if col == band else "" ...}`). -/
structure BandRow where
  composite : List Char
  cells : List (List Char × Cell)
deriving DecidableEq, Repr

/-- Band-table builder `create_band_table` of `processing_helpers.py`. -/
def create_band_table (df : ScoreDF) : List BandRow × List Char :=
  (df.rows.map
    (fun row =>
      let band := classify_band row.ssVal
      { composite := wrap_text row.test 15,
        cells := band_columns.map
          (fun col => (col, if col = band then Cell.val row.ssVal else Cell.empty)) }),
   df.title.getD (chars "Unknown Assessment"))

/-- Extraction pipeline run on the lines of one PDF, as composed by `app.py`:
slice the line stream at the stop phrase, extract the administrative record
and test-date rows, then extract the score rows from the remaining lines. -/
def runExtractionPipeline (all_page_lines : List (List (List Char)))
    (stop_phrase : List Char) :
    Except (List Char) (AdminData × List TestNameRow × List TestRow) :=
  let lines := get_all_the_scores_text all_page_lines stop_phrase
  match extract_administrative_info_and_make_df lines with
  | .error e => .error e
  | .ok (ad, tests, idx) => .ok (ad, tests, extract_test_data (lines.drop idx))

example : chars "ab" = ['a', 'b'] := by decide

example :
    order_dataframe_by_uppercase_in_column
      [⟨chars "ORAL EXPRESSION", 1, 2⟩, ⟨chars "Passage Comp", 3, 4⟩,
       ⟨chars "WORD ATTACK", 5, 6⟩] .testCluster =
      [⟨chars "ORAL EXPRESSION", 1, 2⟩, ⟨chars "WORD ATTACK", 5, 6⟩,
       ⟨chars "Passage Comp", 3, 4⟩] := by decide

example : wrap_text (chars "Broad Oral Language") 15 =
    chars "Broad Oral\nLanguage" := by decide

example :
    searchLazy (chars "Name:") (chars "School:")
      (chars "Name: Doe, Jane   School: Lincoln ES") = some (chars "Doe, Jane") := by decide

example :
    searchLazy (chars "Name:") (chars "School:") (chars "Name:   School: X") =
      some (chars "") := by decide

example : searchLazy (chars "Sex:") (chars "ID:") (chars "Sex: M") = none := by decide

example :
    searchLazy (chars "Name:") (chars "School:") (chars "xName: A  B School: C") =
      some (chars "A  B") := by decide

example :
    searchLazy (chars "Age:") (chars "Grade:") (chars "Age: 15-4 Grade: 9.7") =
      some (chars "15-4") := by decide

example :
    searchAfter (chars "School:") (chars "Name: A School:   B C ") =
      some (chars "B C ") := by decide

example :
    date_line_pattern_search (chars "Date of Testing: 01/02/2024  (WJ IV)") =
      some (chars "01/02/2024", chars "WJ IV") := by decide

example :
    date_line_pattern_match (chars "01/02/2024 (WJ)") =
      some (chars "01/02/2024", chars "WJ") := by decide

example : date_line_pattern_match (chars " 01/02/2024 (WJ)") = none := by decide

example :
    extract_administrative_info_and_make_df
      [chars "HDR", chars "Name: Doe, Jane   School: Lincoln ES",
       chars "TESTS ADMINISTERED"] =
      .ok ({ name := some (chars "Doe, Jane"), school := some (chars "Lincoln ES") },
        [], 10) := rfl

example :
    extract_administrative_info_and_make_df
      [chars "HDR", chars "Sex: M", chars "TESTS ADMINISTERED"] =
      .error (chars "Error extracting administrative information: AttributeError") := rfl

example :
    parseScoreLine (chars "ORAL EXPRESSION 490 102 55 ") =
      some ⟨chars "ORAL EXPRESSION", 102, 55⟩ := by decide

example : parseScoreLine (chars "a b c d") = none := by decide

example : parseScoreLine (chars "a b c +5 +6") = none := by decide

example :
    extract_test_data [chars "A B 1 2 3", chars "A B 1 2 3", chars "C D 4 5 6"] =
      [⟨chars "A B", 2, 3⟩, ⟨chars "C D", 5, 6⟩] := by decide

example :
    get_all_the_scores_text [[chars "a", chars "xSTOPx", chars "b"], [chars "c"]]
      (chars "STOP") = [chars "a"] := by decide

example : classify_band (some 69) = chars "Very Low" := by
  norm_num [classify_band]

example : pySplit (chars "a b  c") = [chars "a", chars "b", chars "c"] := by decide

example : pyInt (chars "-12") = some (-12) := by decide

example : pyInt (chars "1_2") = some 12 := by decide

example : pyInt (chars "1__2") = none := by decide

example : pyIsDigitStr (removeFirstDot (chars "3.5")) = true := by decide

example : pyIn (chars "Name:") (chars "xxName: y") = true := by decide

/-! ### Properties of keep-first deduplication -/

theorem mem_dedupKeepFirstAux {α : Type} [DecidableEq α] (seen l : List α) (x : α) :
    x ∈ dedupKeepFirstAux seen l ↔ x ∈ l ∧ x ∉ seen := by
  induction l generalizing seen with
  | nil => simp [dedupKeepFirstAux]
  | cons a t ih =>
    by_cases ha : a ∈ seen
    · rw [dedupKeepFirstAux, if_pos ha, ih seen]
      constructor
      · rintro ⟨h1, h2⟩
        exact ⟨List.mem_cons_of_mem _ h1, h2⟩
      · rintro ⟨h1, h2⟩
        rcases List.mem_cons.1 h1 with rfl | h1
        · exact absurd ha h2
        · exact ⟨h1, h2⟩
    · rw [dedupKeepFirstAux, if_neg ha]
      rw [List.mem_cons, ih (a :: seen)]
      constructor
      · rintro (rfl | ⟨h1, h2⟩)
        · exact ⟨List.mem_cons_self _ _, ha⟩
        · exact ⟨List.mem_cons_of_mem _ h1,
            fun hx => h2 (List.mem_cons_of_mem _ hx)⟩
      · rintro ⟨h1, h2⟩
        by_cases hxa : x = a
        · exact Or.inl hxa
        · rcases List.mem_cons.1 h1 with rfl | h1
          · exact Or.inl rfl
          · refine Or.inr ⟨h1, fun hx => ?_⟩
            rcases List.mem_cons.1 hx with rfl | hx
            · exact hxa rfl
            · exact h2 hx

theorem nodup_dedupKeepFirstAux {α : Type} [DecidableEq α] (seen l : List α) :
    (dedupKeepFirstAux seen l).Nodup := by
  induction l generalizing seen with
  | nil => simp [dedupKeepFirstAux]
  | cons a t ih =>
    by_cases ha : a ∈ seen
    · rw [dedupKeepFirstAux, if_pos ha]
      exact ih seen
    · rw [dedupKeepFirstAux, if_neg ha]
      refine List.nodup_cons.2 ⟨fun hmem => ?_, ih (a :: seen)⟩
      exact ((mem_dedupKeepFirstAux _ _ _).1 hmem).2 (List.mem_cons_self a seen)

theorem sublist_dedupKeepFirstAux {α : Type} [DecidableEq α] (seen l : List α) :
    (dedupKeepFirstAux seen l).Sublist l := by
  induction l generalizing seen with
  | nil => simp [dedupKeepFirstAux]
  | cons a t ih =>
    by_cases ha : a ∈ seen
    · rw [dedupKeepFirstAux, if_pos ha]
      exact (ih seen).cons a
    · rw [dedupKeepFirstAux, if_neg ha]
      exact (ih (a :: seen)).cons₂ a

theorem pairwise_indexOf_dedupKeepFirstAux {α : Type} [DecidableEq α] (seen l : List α) :
    (dedupKeepFirstAux seen l).Pairwise (fun x y => l.indexOf x < l.indexOf y) := by
  induction l generalizing seen with
  | nil => simp [dedupKeepFirstAux]
  | cons a t ih =>
    by_cases ha : a ∈ seen
    · rw [dedupKeepFirstAux, if_pos ha]
      refine (ih seen).imp_of_mem ?_
      intro x y hx hy hxy
      have hxs := (mem_dedupKeepFirstAux seen t x).1 hx
      have hys := (mem_dedupKeepFirstAux seen t y).1 hy
      have hxa : x ≠ a := fun h => hxs.2 (h ▸ ha)
      have hya : y ≠ a := fun h => hys.2 (h ▸ ha)
      rw [List.indexOf_cons_ne _ (fun h => hxa h.symm),
        List.indexOf_cons_ne _ (fun h => hya h.symm)]
      omega
    · rw [dedupKeepFirstAux, if_neg ha]
      refine List.pairwise_cons.2 ⟨?_, ?_⟩
      · intro y hy
        have hys := (mem_dedupKeepFirstAux (a :: seen) t y).1 hy
        have hya : y ≠ a := fun h => hys.2 (h ▸ List.mem_cons_self a seen)
        rw [List.indexOf_cons_self, List.indexOf_cons_ne _ (fun h => hya h.symm)]
        omega
      · refine (ih (a :: seen)).imp_of_mem ?_
        intro x y hx hy hxy
        have hxs := (mem_dedupKeepFirstAux (a :: seen) t x).1 hx
        have hys := (mem_dedupKeepFirstAux (a :: seen) t y).1 hy
        have hxa : x ≠ a := fun h => hxs.2 (h ▸ List.mem_cons_self a seen)
        have hya : y ≠ a := fun h => hys.2 (h ▸ List.mem_cons_self a seen)
        rw [List.indexOf_cons_ne _ (fun h => hxa h.symm),
          List.indexOf_cons_ne _ (fun h => hya h.symm)]
        omega

theorem mem_dedupKeepFirst {α : Type} [DecidableEq α] (l : List α) (x : α) :
    x ∈ dedupKeepFirst l ↔ x ∈ l := by
  rw [dedupKeepFirst, mem_dedupKeepFirstAux]
  simp

theorem nodup_dedupKeepFirst {α : Type} [DecidableEq α] (l : List α) :
    (dedupKeepFirst l).Nodup := nodup_dedupKeepFirstAux [] l

theorem sublist_dedupKeepFirst {α : Type} [DecidableEq α] (l : List α) :
    (dedupKeepFirst l).Sublist l := sublist_dedupKeepFirstAux [] l

theorem pairwise_indexOf_dedupKeepFirst {α : Type} [DecidableEq α] (l : List α) :
    (dedupKeepFirst l).Pairwise (fun x y => l.indexOf x < l.indexOf y) :=
  pairwise_indexOf_dedupKeepFirstAux [] l

/-! ### The score-line parser, as the specification words it -/

/-- Score-line parsing in the order the specification describes it: split on
whitespace; reject a line of fewer than five tokens; scan left to right for
the first numeric token, everything before it becoming the subtest name; parse
the line's final two tokens as the (standard score, percentile rank) integers;
skip the line when no numeric token exists or either integer parse fails.  To
be compared with `parseScoreLine`, which performs the same tests in source
order (integer parses first). -/
def parseScoreLine_spec (line : List Char) : Option TestRow :=
  let tokens := pySplit (pyStrip line)
  if tokens.length < 5 then none
  else
    match tokens.findIdx? (fun t => pyIsDigitStr (removeFirstDot t)) with
    | none => none
    | some i =>
      match pyInt (tokens.getD (tokens.length - 2) []),
            pyInt (tokens.getD (tokens.length - 1) []) with
      | some ss, some pr => some ⟨List.intercalate [' '] (tokens.take i), ss, pr⟩
      | _, _ => none

theorem parseScoreLine_eq_spec (line : List Char) :
    parseScoreLine line = parseScoreLine_spec line := by
  unfold parseScoreLine parseScoreLine_spec
  by_cases hlen : (pySplit (pyStrip line)).length < 5
  · simp [hlen]
  · cases hI : (pySplit (pyStrip line)).findIdx? (fun t => pyIsDigitStr (removeFirstDot t)) with
    | none =>
      simp [hlen, hI]
      all_goals split <;> rfl
    | some i =>
      simp [hlen, hI]

theorem parseScoreLine_short (line : List Char)
    (h : (pySplit (pyStrip line)).length < 5) : parseScoreLine line = none := by
  simp [parseScoreLine, h]

theorem rawScoreRows_skip (pre post : List (List Char)) (line : List Char)
    (h : parseScoreLine line = none) :
    rawScoreRows (pre ++ line :: post) = rawScoreRows (pre ++ post) := by
  simp [rawScoreRows, List.filterMap_append, List.filterMap_cons, h]

/-! ### The section slicer as a takeWhile of the flattened stream -/

theorem scanPage_eq (stop : List Char) (page : List (List Char)) :
    scanPage stop page =
      (page.takeWhile (fun l => !pyIn stop l), page.any (fun l => pyIn stop l)) := by
  induction page with
  | nil => rfl
  | cons line rest ih =>
    by_cases h : pyIn stop line = true
    · simp [scanPage, h, List.takeWhile_cons, List.any_cons]
    · simp only [Bool.not_eq_true] at h
      simp [scanPage, h, ih, List.takeWhile_cons, List.any_cons]

theorem takeWhile_append_of_all {α : Type} (p : α → Bool) (xs ys : List α)
    (h : ∀ x ∈ xs, p x = true) :
    (xs ++ ys).takeWhile p = xs ++ ys.takeWhile p := by
  induction xs with
  | nil => simp
  | cons a t ih =>
    have ha := h a (List.mem_cons_self _ _)
    simp [List.takeWhile_cons, ha, ih (fun x hx => h x (List.mem_cons_of_mem _ hx))]

theorem takeWhile_append_of_stop {α : Type} (p : α → Bool) (xs ys : List α)
    (h : xs.all p = false) :
    (xs ++ ys).takeWhile p = xs.takeWhile p := by
  induction xs with
  | nil => simp at h
  | cons a t ih =>
    by_cases ha : p a = true
    · rw [List.all_cons, ha, Bool.true_and] at h
      simp [List.takeWhile_cons, ha, ih h]
    · simp only [Bool.not_eq_true] at ha
      simp [List.takeWhile_cons, ha]

theorem get_all_eq_takeWhile (pages : List (List (List Char))) (stop : List Char) :
    get_all_the_scores_text pages stop =
      pages.flatten.takeWhile (fun l => !pyIn stop l) := by
  induction pages with
  | nil => rfl
  | cons page more ih =>
    rw [get_all_the_scores_text, scanPage_eq]
    by_cases h : page.any (fun l => pyIn stop l) = true
    · have hall : page.all (fun l => !pyIn stop l) = false := by
        rcases List.any_eq_true.mp h with ⟨x, hx, hpx⟩
        refine List.all_eq_false.mpr ⟨x, hx, by simp [hpx]⟩
      rw [List.flatten_cons, takeWhile_append_of_stop _ _ _ hall]
      simp [h]
    · simp only [Bool.not_eq_true] at h
      have hall : ∀ x ∈ page, (!pyIn stop x) = true := by
        intro x hx
        have hpx := List.any_eq_false.mp h x hx
        simp only [Bool.not_eq_true] at hpx
        simp [hpx]
      rw [List.flatten_cons, takeWhile_append_of_all _ _ _ hall, ← ih]
      simp [h]
      intro x hx
      simpa using hall x hx

/-! ### Properties of the band classifier -/

theorem classify_band_very_low (q : ℚ) (h : q < 70) :
    classify_band (some q) = chars "Very Low" := by
  simp only [classify_band]
  rw [if_pos h]

theorem classify_band_low (q : ℚ) (h1 : 70 ≤ q) (h2 : q < 80) :
    classify_band (some q) = chars "Low" := by
  simp only [classify_band]
  rw [if_neg (by linarith), if_pos h2]

theorem classify_band_low_average (q : ℚ) (h1 : 80 ≤ q) (h2 : q < 90) :
    classify_band (some q) = chars "Low Average" := by
  simp only [classify_band]
  rw [if_neg (by linarith), if_neg (by linarith), if_pos h2]

theorem classify_band_average (q : ℚ) (h1 : 90 ≤ q) (h2 : q < 110) :
    classify_band (some q) = chars "Average" := by
  simp only [classify_band]
  rw [if_neg (by linarith), if_neg (by linarith), if_neg (by linarith), if_pos h2]

theorem classify_band_high_average (q : ℚ) (h1 : 110 ≤ q) (h2 : q < 120) :
    classify_band (some q) = chars "High Average" := by
  simp only [classify_band]
  rw [if_neg (by linarith), if_neg (by linarith), if_neg (by linarith),
    if_neg (by linarith), if_pos h2]

theorem classify_band_superior (q : ℚ) (h : 120 ≤ q) :
    classify_band (some q) = chars "Superior" := by
  simp only [classify_band]
  rw [if_neg (by linarith), if_neg (by linarith), if_neg (by linarith),
    if_neg (by linarith), if_neg (by linarith)]

theorem classify_band_none_na : classify_band none = chars "N/A" := rfl

theorem classify_band_some_mem (q : ℚ) : classify_band (some q) ∈ band_columns := by
  simp only [classify_band]
  split_ifs <;> decide

theorem band_columns_nodup : band_columns.Nodup := by decide

theorem na_not_mem_band_columns : chars "N/A" ∉ band_columns := by decide

theorem bandRanges_exactly_one (q : ℚ) :
    ((bandRanges.map (fun p => p q)).count true) = 1 := by
  rcases lt_or_le q 70 with h1 | h1
  · simp [bandRanges, decide_eq_true h1,
      decide_eq_false (by linarith : ¬(70 : ℚ) ≤ q),
      decide_eq_false (by linarith : ¬(80 : ℚ) ≤ q),
      decide_eq_false (by linarith : ¬(90 : ℚ) ≤ q),
      decide_eq_false (by linarith : ¬(110 : ℚ) ≤ q),
      decide_eq_false (by linarith : ¬(120 : ℚ) ≤ q)]
  · rcases lt_or_le q 80 with h2 | h2
    · simp [bandRanges, decide_eq_false (by linarith : ¬q < 70), decide_eq_true h1,
        decide_eq_true h2,
        decide_eq_false (by linarith : ¬(80 : ℚ) ≤ q),
        decide_eq_false (by linarith : ¬(90 : ℚ) ≤ q),
        decide_eq_false (by linarith : ¬(110 : ℚ) ≤ q),
        decide_eq_false (by linarith : ¬(120 : ℚ) ≤ q)]
    · rcases lt_or_le q 90 with h3 | h3
      · simp [bandRanges, decide_eq_false (by linarith : ¬q < 70),
          decide_eq_false (by linarith : ¬q < 80), decide_eq_true h2, decide_eq_true h3,
          decide_eq_false (by linarith : ¬(90 : ℚ) ≤ q),
          decide_eq_false (by linarith : ¬(110 : ℚ) ≤ q),
          decide_eq_false (by linarith : ¬(120 : ℚ) ≤ q)]
      · rcases lt_or_le q 110 with h4 | h4
        · simp [bandRanges, decide_eq_false (by linarith : ¬q < 70),
            decide_eq_false (by linarith : ¬q < 80),
            decide_eq_false (by linarith : ¬q < 90), decide_eq_true h3, decide_eq_true h4,
            decide_eq_false (by linarith : ¬(110 : ℚ) ≤ q),
            decide_eq_false (by linarith : ¬(120 : ℚ) ≤ q)]
        · rcases lt_or_le q 120 with h5 | h5
          · simp [bandRanges, decide_eq_false (by linarith : ¬q < 70),
              decide_eq_false (by linarith : ¬q < 80),
              decide_eq_false (by linarith : ¬q < 90),
              decide_eq_false (by linarith : ¬q < 110), decide_eq_true h4,
              decide_eq_true h5,
              decide_eq_false (by linarith : ¬(120 : ℚ) ≤ q)]
          · simp [bandRanges, decide_eq_false (by linarith : ¬q < 70),
              decide_eq_false (by linarith : ¬q < 80),
              decide_eq_false (by linarith : ¬q < 90),
              decide_eq_false (by linarith : ¬q < 110),
              decide_eq_false (by linarith : ¬q < 120), decide_eq_true h5]

/-- Count of elements equal to `b` in a duplicate-free list, via `countP`. -/
theorem countP_decide_eq {α : Type} [DecidableEq α] (l : List α) (hl : l.Nodup) (b : α) :
    l.countP (fun x => decide (x = b)) = if b ∈ l then 1 else 0 := by
  induction l with
  | nil => simp
  | cons a t ih =>
    rcases List.nodup_cons.1 hl with ⟨hna, hnt⟩
    by_cases hab : a = b
    · subst hab
      simp [List.countP_cons, ih hnt, hna]
    · simp [List.countP_cons, hab, ih hnt, List.mem_cons, Ne.symm hab]

/-! ### Behaviour of the administrative loop body -/

theorem processAdminLine_no_labels (st : AdminData × List (List Char × List Char))
    (line : List Char)
    (h1 : (pyIn (chars "Name:") line && pyIn (chars "School:") line) = false)
    (h2 : (pyIn (chars "Date of Birth:") line && pyIn (chars "Teacher:") line) = false)
    (h3 : (pyIn (chars "Age:") line && pyIn (chars "Grade:") line) = false)
    (h4 : pyIn (chars "Sex:") line = false)
    (h5 : pyIn (chars "Date of Testing:") line = false) :
    processAdminLine st line = .ok st := by
  obtain ⟨ad, dates⟩ := st
  simp [processAdminLine, h1, h2, h3, h4, h5]

theorem processAdminLine_sex_no_id (st : AdminData × List (List Char × List Char))
    (line : List Char)
    (h1 : (pyIn (chars "Name:") line && pyIn (chars "School:") line) = false)
    (h2 : (pyIn (chars "Date of Birth:") line && pyIn (chars "Teacher:") line) = false)
    (h3 : (pyIn (chars "Age:") line && pyIn (chars "Grade:") line) = false)
    (h4 : pyIn (chars "Sex:") line = true)
    (hs : searchLazy (chars "Sex:") (chars "ID:") line = none) :
    processAdminLine st line = .error (chars "AttributeError") := by
  obtain ⟨ad, dates⟩ := st
  simp [processAdminLine, h1, h2, h3, h4, hs]

/-! ### Claim theorems -/

/-- C1: `classify_band` is total: every float-convertible score is mapped to
exactly one of the six labels according to the thresholds 70/80/90/110/120
(with 69 → "Very Low", 70 → "Low", 119 → "High Average", 120 → "Superior"),
the six ranges cover the line with no gap or overlap, and a non-convertible
input yields the sentinel "N/A" without an error. -/
theorem classify_band_total_and_thresholds :
    (∀ q : ℚ, q < 70 → classify_band (some q) = chars "Very Low")
  ∧ (∀ q : ℚ, 70 ≤ q → q < 80 → classify_band (some q) = chars "Low")
  ∧ (∀ q : ℚ, 80 ≤ q → q < 90 → classify_band (some q) = chars "Low Average")
  ∧ (∀ q : ℚ, 90 ≤ q → q < 110 → classify_band (some q) = chars "Average")
  ∧ (∀ q : ℚ, 110 ≤ q → q < 120 → classify_band (some q) = chars "High Average")
  ∧ (∀ q : ℚ, 120 ≤ q → classify_band (some q) = chars "Superior")
  ∧ (∀ q : ℚ, classify_band (some q) ∈ band_columns)
  ∧ (∀ q : ℚ, ((bandRanges.map (fun p => p q)).count true) = 1)
  ∧ classify_band none = chars "N/A"
  ∧ classify_band (some 69) = chars "Very Low"
  ∧ classify_band (some 70) = chars "Low"
  ∧ classify_band (some 119) = chars "High Average"
  ∧ classify_band (some 120) = chars "Superior" :=
  ⟨classify_band_very_low, classify_band_low, classify_band_low_average,
   classify_band_average, classify_band_high_average, classify_band_superior,
   classify_band_some_mem, bandRanges_exactly_one, classify_band_none_na,
   classify_band_very_low 69 (by norm_num),
   classify_band_low 70 (by norm_num) (by norm_num),
   classify_band_high_average 119 (by norm_num) (by norm_num),
   classify_band_superior 120 (by norm_num)⟩

/-- Witness for C1 at the concrete score 75. -/
theorem classify_band_total_and_thresholds_witness :
    (70 : ℚ) ≤ 75 ∧ (75 : ℚ) < 80 ∧ classify_band (some 75) = chars "Low" :=
  ⟨by norm_num, by norm_num,
   classify_band_total_and_thresholds.2.1 75 (by norm_num) (by norm_num)⟩

/-- C2: the per-line behaviour of `extract_test_data` is exactly the
specification's protocol (split on whitespace, reject under five tokens,
first numeric token splits off the name, final two tokens parse as the SS and
PR integers, failures skip the line), and a skipped line contributes no row. -/
theorem extract_test_data_line_protocol :
    (∀ line, parseScoreLine line = parseScoreLine_spec line)
  ∧ (∀ (pre post : List (List Char)) (line : List Char),
      parseScoreLine_spec line = none →
      extract_test_data (pre ++ line :: post) = extract_test_data (pre ++ post)) := by
  refine ⟨parseScoreLine_eq_spec, ?_⟩
  intro pre post line h
  unfold extract_test_data
  rw [rawScoreRows_skip _ _ _ (by rw [parseScoreLine_eq_spec]; exact h)]

/-- Witness for C2: a two-token line is skipped and contributes no row. -/
theorem extract_test_data_line_protocol_witness :
    parseScoreLine_spec (chars "a b") = none ∧
      extract_test_data ([chars "W X 1 2 3"] ++ chars "a b" :: []) =
        extract_test_data ([chars "W X 1 2 3"] ++ []) :=
  ⟨by decide, extract_test_data_line_protocol.2 _ _ _ (by decide)⟩

/-- C3 counterexample: an administrative line carrying "Sex:" but lacking
"ID:" does not silently omit the Sex field — it makes
`extract_administrative_info_and_make_df` raise (the guarded branch calls
`.group(1)` on a failed search). -/
theorem admin_sex_line_without_id_raises :
    extract_administrative_info_and_make_df
      [chars "HDR", chars "Sex: M", chars "TESTS ADMINISTERED"] =
      .error (chars "Error extracting administrative information: AttributeError") := rfl

/-- C3 (amended): a line on which the guarding label substrings of a branch
are absent leaves the administrative record unchanged (the field is silently
omitted) and causes no error; but a line containing "Sex:" whose text does not
match the `Sex: ... ID:` pattern (for example, lacking the "ID:" label) makes
the parser raise instead of omitting the field. -/
theorem admin_label_absence_behaviour :
    (∀ (st : AdminData × List (List Char × List Char)) (line : List Char),
      (pyIn (chars "Name:") line && pyIn (chars "School:") line) = false →
      (pyIn (chars "Date of Birth:") line && pyIn (chars "Teacher:") line) = false →
      (pyIn (chars "Age:") line && pyIn (chars "Grade:") line) = false →
      pyIn (chars "Sex:") line = false →
      pyIn (chars "Date of Testing:") line = false →
      processAdminLine st line = .ok st)
  ∧ (∀ (st : AdminData × List (List Char × List Char)) (line : List Char),
      (pyIn (chars "Name:") line && pyIn (chars "School:") line) = false →
      (pyIn (chars "Date of Birth:") line && pyIn (chars "Teacher:") line) = false →
      (pyIn (chars "Age:") line && pyIn (chars "Grade:") line) = false →
      pyIn (chars "Sex:") line = true →
      searchLazy (chars "Sex:") (chars "ID:") line = none →
      processAdminLine st line = .error (chars "AttributeError")) :=
  ⟨processAdminLine_no_labels, processAdminLine_sex_no_id⟩

/-- Witness for C3 (amended) on a label-free line and on "Sex: M". -/
theorem admin_label_absence_behaviour_witness :
    processAdminLine ({}, []) (chars "nothing here") = .ok ({}, []) ∧
      processAdminLine ({}, []) (chars "Sex: M") = .error (chars "AttributeError") :=
  ⟨admin_label_absence_behaviour.1 _ _ (by decide) (by decide) (by decide)
      (by decide) (by decide),
   admin_label_absence_behaviour.2 _ _ (by decide) (by decide) (by decide)
      (by decide) (by decide)⟩

/-- C4: a line whose whitespace tokenization has fewer than five tokens is
skipped by `extract_test_data`: it contributes no row and causes no error. -/
theorem extract_test_data_short_line_skipped (pre post : List (List Char))
    (line : List Char) (h : (pySplit (pyStrip line)).length < 5) :
    extract_test_data (pre ++ line :: post) = extract_test_data (pre ++ post) := by
  unfold extract_test_data
  rw [rawScoreRows_skip _ _ _ (parseScoreLine_short _ h)]

/-- Witness for C4 on a four-token line. -/
theorem extract_test_data_short_line_skipped_witness :
    (pySplit (pyStrip (chars "a b c d"))).length < 5 ∧
      extract_test_data ([chars "K L 7 8 9"] ++ chars "a b c d" :: []) =
        extract_test_data ([chars "K L 7 8 9"] ++ []) :=
  ⟨by decide, extract_test_data_short_line_skipped _ _ _ (by decide)⟩

/-- C5: on an input whose administrative segment contains the well-formed
two-field line "Name: Doe, Jane   School: Lincoln ES", the administrative
record has Name = "Doe, Jane" and School = "Lincoln ES". -/
theorem admin_two_field_line_name_school :
    extract_administrative_info_and_make_df
      [chars "HDR", chars "Name: Doe, Jane   School: Lincoln ES",
       chars "TESTS ADMINISTERED"] =
      .ok ({ name := some (chars "Doe, Jane"), school := some (chars "Lincoln ES") },
        [], 10) := rfl

/-- C6: `get_all_the_scores_text` returns exactly the lines of the flattened
page-order stream preceding the first line containing the stop phrase; no
returned line contains the stop phrase; if no line contains it, the whole
flattened stream is returned. -/
theorem get_all_the_scores_text_correct :
    ∀ (pages : List (List (List Char))) (stop : List Char),
      get_all_the_scores_text pages stop =
        pages.flatten.takeWhile (fun l => !pyIn stop l)
    ∧ (∀ l ∈ get_all_the_scores_text pages stop, pyIn stop l = false)
    ∧ ((∀ l ∈ pages.flatten, pyIn stop l = false) →
        get_all_the_scores_text pages stop = pages.flatten) := by
  intro pages stop
  refine ⟨get_all_eq_takeWhile pages stop, ?_, ?_⟩
  · intro l hl
    rw [get_all_eq_takeWhile] at hl
    simpa using List.mem_takeWhile_imp hl
  · intro h
    rw [get_all_eq_takeWhile]
    refine List.takeWhile_eq_self_iff.2 ?_
    intro x hx
    simp [h x hx]

/-- Witness for C6: with no stop line the whole stream is returned. -/
theorem get_all_the_scores_text_correct_witness :
    get_all_the_scores_text [[chars "a"], [chars "b"]] (chars "Z") =
      ([[chars "a"], [chars "b"]] : List (List (List Char))).flatten :=
  (get_all_the_scores_text_correct [[chars "a"], [chars "b"]] (chars "Z")).2.2
    (by decide)

/-- C7: the table returned by `extract_test_data` has no two rows agreeing on
all of subtest name, SS and PR; it is the keep-first deduplication of the raw
row list: a subsequence of the raw rows containing each raw row, ordered by
first occurrence. -/
theorem extract_test_data_dedup_identity :
    ∀ test_list : List (List Char),
      (extract_test_data test_list).Pairwise
        (fun r1 r2 => ¬(r1.testCluster = r2.testCluster ∧ r1.ss = r2.ss ∧ r1.pr = r2.pr))
    ∧ (∀ r, r ∈ extract_test_data test_list ↔ r ∈ rawScoreRows test_list)
    ∧ (extract_test_data test_list).Sublist (rawScoreRows test_list)
    ∧ (extract_test_data test_list).Pairwise
        (fun r1 r2 =>
          (rawScoreRows test_list).indexOf r1 < (rawScoreRows test_list).indexOf r2) := by
  intro tl
  simp only [extract_test_data]
  refine ⟨?_, fun r => mem_dedupKeepFirst _ r, sublist_dedupKeepFirst _,
    pairwise_indexOf_dedupKeepFirst _⟩
  refine (nodup_dedupKeepFirst _).imp ?_
  intro r1 r2 hne hagree
  rcases hagree with ⟨h1, h2, h3⟩
  exact hne (by cases r1; cases r2; simp_all)

/-- Witness for C7 on a duplicated concrete line. -/
theorem extract_test_data_dedup_identity_witness :
    (extract_test_data [chars "A B 1 2 3", chars "A B 1 2 3"]).Sublist
      (rawScoreRows [chars "A B 1 2 3", chars "A B 1 2 3"]) :=
  (extract_test_data_dedup_identity _).2.2.1

/-- C8: the extraction pipeline is deterministic — two runs on equal inputs
produce equal extracted tables. -/
theorem runExtractionPipeline_deterministic
    (p1 p2 : List (List (List Char))) (s1 s2 : List Char)
    (hp : p1 = p2) (hs : s1 = s2) :
    runExtractionPipeline p1 s1 = runExtractionPipeline p2 s2 := by
  subst hp
  subst hs
  rfl

/-- Witness for C8 on a concrete input. -/
theorem runExtractionPipeline_deterministic_witness :
    runExtractionPipeline
        [[chars "HDR", chars "Name: A   School: B", chars "TESTS ADMINISTERED"]]
        (chars "ZZZ") =
      runExtractionPipeline
        [[chars "HDR", chars "Name: A   School: B", chars "TESTS ADMINISTERED"]]
        (chars "ZZZ") :=
  runExtractionPipeline_deterministic _ _ _ _ rfl rfl

/-- Count of non-empty cells in one generated band row, for any band label. -/
theorem band_cells_countP (x : PyFloat) (b : List Char) :
    (band_columns.map
        (fun col => (col, if col = b then Cell.val x else Cell.empty))).countP
      (fun p => p.2 ≠ Cell.empty) = if b ∈ band_columns then 1 else 0 := by
  rw [List.countP_map]
  have hpt : ((fun p : List Char × Cell => decide (p.2 ≠ Cell.empty)) ∘
      (fun col => (col, if col = b then Cell.val x else Cell.empty))) =
      fun col => decide (col = b) := by
    funext col
    by_cases hc : col = b <;> simp [hc]
  rw [hpt, countP_decide_eq _ band_columns_nodup]
  by_cases hb : b ∈ band_columns
  · rw [if_pos hb, if_pos hb]
  · rw [if_neg hb, if_neg hb]

/-- C9: in every row of the table built by `create_band_table`, at most one
band column is non-empty; when the row's standard score is numeric, exactly
the column matching `classify_band` of the score holds the score and all
other band columns hold the empty string; when the score is non-numeric, all
six band columns are empty. -/
theorem create_band_table_one_band_per_row (df : ScoreDF) (i : Nat)
    (row : RenamedRow) (h : df.rows[i]? = some row) :
    ∃ r : BandRow, ((create_band_table df).1)[i]? = some r
    ∧ r.cells.countP (fun p => p.2 ≠ Cell.empty) ≤ 1
    ∧ (∀ q : ℚ, row.ssVal = some q →
        ((classify_band (some q), Cell.val (some q)) ∈ r.cells
        ∧ (∀ p ∈ r.cells, p.1 ≠ classify_band (some q) → p.2 = Cell.empty)
        ∧ r.cells.countP (fun p => p.2 ≠ Cell.empty) = 1))
    ∧ (row.ssVal = none → ∀ p ∈ r.cells, p.2 = Cell.empty) := by
  refine ⟨{ composite := wrap_text row.test 15,
            cells := band_columns.map (fun col =>
              (col, if col = classify_band row.ssVal then Cell.val row.ssVal
                    else Cell.empty)) }, ?_, ?_, ?_, ?_⟩
  · simp [create_band_table, List.getElem?_map, h]
  · rw [band_cells_countP]
    split <;> omega
  · intro q hq
    rw [hq]
    refine ⟨?_, ?_, ?_⟩
    · exact List.mem_map.2 ⟨classify_band (some q), classify_band_some_mem q, by simp⟩
    · intro p hp hne
      rcases List.mem_map.1 hp with ⟨col, hcol, rfl⟩
      simp only [ne_eq] at hne
      simp [hne]
    · rw [band_cells_countP, if_pos (classify_band_some_mem q)]
  · intro hnone p hp
    rw [hnone] at hp
    rcases List.mem_map.1 hp with ⟨col, hcol, rfl⟩
    have hcb : col ≠ classify_band none := by
      intro hcb
      rw [classify_band_none_na] at hcb
      exact na_not_mem_band_columns (hcb ▸ hcol)
    simp [hcb]

/-- Witness for C9 on a one-row frame with the numeric score 100. -/
theorem create_band_table_one_band_per_row_witness :
    ∃ r : BandRow,
      ((create_band_table ⟨none, [⟨chars "X", some 100⟩]⟩).1)[0]? = some r
      ∧ r.cells.countP (fun p => p.2 ≠ Cell.empty) ≤ 1 := by
  obtain ⟨r, h1, h2, _, _⟩ :=
    create_band_table_one_band_per_row ⟨none, [⟨chars "X", some 100⟩]⟩ 0
      ⟨chars "X", some 100⟩ rfl
  exact ⟨r, h1, h2⟩

/-- C10: `order_dataframe_by_uppercase_in_column` returns a permutation of its
input in which the uppercase-valued rows come first and then the remaining
rows, each group keeping the input's relative order; an empty frame is
returned unchanged. -/
theorem order_dataframe_by_uppercase_props :
    ∀ (df : List TestRow) (cn : ColName),
      List.Perm (order_dataframe_by_uppercase_in_column df cn) df
    ∧ (order_dataframe_by_uppercase_in_column df cn).filter
        (fun r => is_uppercase_value (colVal r cn)) =
        df.filter (fun r => is_uppercase_value (colVal r cn))
    ∧ (order_dataframe_by_uppercase_in_column df cn).filter
        (fun r => !is_uppercase_value (colVal r cn)) =
        df.filter (fun r => !is_uppercase_value (colVal r cn))
    ∧ (order_dataframe_by_uppercase_in_column df cn).Pairwise
        (fun r1 r2 => is_uppercase_value (colVal r2 cn) = true →
          is_uppercase_value (colVal r1 cn) = true)
    ∧ order_dataframe_by_uppercase_in_column [] cn = [] := by
  intro df cn
  by_cases hdf : df = []
  · subst hdf
    simp [order_dataframe_by_uppercase_in_column]
  · unfold order_dataframe_by_uppercase_in_column
    rw [if_neg hdf]
    refine ⟨List.filter_append_perm _ df, ?_, ?_, ?_, by simp⟩
    · simp [List.filter_append, List.filter_filter]
    · simp [List.filter_append, List.filter_filter]
    · rw [List.pairwise_append]
      refine ⟨?_, ?_, ?_⟩
      · exact List.pairwise_of_forall_mem_list
          (fun a ha b hb _ => (List.mem_filter.1 ha).2)
      · refine List.pairwise_of_forall_mem_list (fun a ha b hb hpb => ?_)
        have := (List.mem_filter.1 hb).2
        simp only [Bool.not_eq_true'] at this
        rw [this] at hpb
        cases hpb
      · intro a ha b hb _
        exact (List.mem_filter.1 ha).2

/-- Witness for C10 on a concrete two-row frame. -/
theorem order_dataframe_by_uppercase_props_witness :
    List.Perm
      (order_dataframe_by_uppercase_in_column
        [⟨chars "a b", 1, 2⟩, ⟨chars "A B", 3, 4⟩] .testCluster)
      [⟨chars "a b", 1, 2⟩, ⟨chars "A B", 3, 4⟩] :=
  (order_dataframe_by_uppercase_props _ _).1
